import Mathlib

/-!
Shallow embedding of the core of the `tgsummarizer` repository:
the per-day message store (`src/storage/message_storage.py`), the
time-of-day window filter and the daily aggregation pass
(`src/bot/telegram_bot.py`), and the scheduler time computation
(`src/scheduler.py`).  Machine reals/datetimes are modelled at whole-second
granularity; Python dictionaries holding message records are modelled by the
`Entry` type below; fallible operations return `Option`/`Except`.
-/

namespace TgSummarizer

/-- An hour-minute time of day, the parse result of an `"HH:MM"` string
(`map(int, s.split(':'))` followed by `time(hour, minute)` in the source). -/
structure HM where
  hour : Nat
  minute : Nat
deriving DecidableEq, Repr

/-- A value representable by Python `datetime.time(hour, minute)`. -/
def HM.valid (t : HM) : Prop := t.hour < 24 ∧ t.minute < 60

instance (t : HM) : Decidable t.valid := by unfold HM.valid; infer_instance

/-- Seconds since midnight of an hour-minute time of day.  Python compares
`time` objects lexicographically on (hour, minute, second, microsecond); for
the whole-second values in this development that is exactly comparison of
seconds since midnight. -/
def HM.toSec (t : HM) : Nat := t.hour * 3600 + t.minute * 60

/-- The decimal digit character for `d` (the characters of Python's
zero-padded `"%02d"` rendering when `d ≤ 9`). -/
def dchar (d : Nat) : Char := Char.ofNat (48 + d)

/-- The `"HH:MM"` string for an hour-minute pair, zero padded, as produced by
the literal window bounds `"06:00"`, `"12:00"`, ... in the source. -/
def HM.render (t : HM) : String :=
  ⟨[dchar (t.hour / 10), dchar (t.hour % 10), ':',
    dchar (t.minute / 10), dchar (t.minute % 10)]⟩

/-- Lexicographic order on lists of Unicode code points: Python's `<=` on
strings (`start_time <= end_time` in `_filter_messages_by_time_range`). -/
def lexLe : List Nat → List Nat → Bool
  | [], _ => true
  | _ :: _, [] => false
  | a :: as, b :: bs => if a < b then true else if a = b then lexLe as bs else false

/-- The Python string comparison `start_time <= end_time` applied to the
rendered `"HH:MM"` forms of the two bounds. -/
def strLe (a b : HM) : Bool :=
  lexLe (a.render.data.map Char.toNat) (b.render.data.map Char.toNat)

theorem dchar_toNat (d : Nat) (h : d < 10) : (dchar d).toNat = 48 + d := by
  interval_cases d <;> rfl

/-- For valid times rendered with zero padding, Python's string comparison of
the `"HH:MM"` forms agrees with comparison of the times themselves. -/
theorem strLe_iff (a b : HM) (ha : a.valid) (hb : b.valid) :
    strLe a b = true ↔ a.toSec ≤ b.toSec := by
  obtain ⟨ha1, ha2⟩ := ha
  obtain ⟨hb1, hb2⟩ := hb
  unfold strLe HM.render
  simp only [String.data, List.map]
  rw [dchar_toNat (a.hour / 10) (by omega), dchar_toNat (a.hour % 10) (by omega),
    dchar_toNat (a.minute / 10) (by omega), dchar_toNat (a.minute % 10) (by omega),
    dchar_toNat (b.hour / 10) (by omega), dchar_toNat (b.hour % 10) (by omega),
    dchar_toNat (b.minute / 10) (by omega), dchar_toNat (b.minute % 10) (by omega)]
  show lexLe [48 + a.hour / 10, 48 + a.hour % 10, 58, 48 + a.minute / 10, 48 + a.minute % 10]
      [48 + b.hour / 10, 48 + b.hour % 10, 58, 48 + b.minute / 10, 48 + b.minute % 10] = true
      ↔ a.toSec ≤ b.toSec
  simp only [lexLe, HM.toSec]
  split_ifs <;> simp <;> omega

/-- A local timestamp at whole-second granularity: a calendar-day index
(`day`, the number of days since some fixed epoch, standing for the
`%Y-%m-%d` date that names the backing file) and the seconds elapsed since
that day's midnight (`sec < 86400` for timestamps Python can represent). -/
structure LTime where
  day : Nat
  sec : Nat
deriving DecidableEq, Repr

/-- Seconds since the epoch; Python `datetime` subtraction and comparison on
whole-second values is exactly arithmetic on this quantity.  Likewise the
ISO `"%Y-%m-%dT%H:%M:%S"` strings stored in the `timestamp` field compare
lexicographically in the same order as this quantity. -/
def LTime.abs (t : LTime) : Nat := t.day * 86400 + t.sec

/-- One element of a decoded day-file JSON array, as the bot sees it after
JSON decoding and timestamp parsing.

* `obj user ts` is a JSON object: `user` is `msg.get('user', 'Unknown')`
  (the default already applied) and `ts` is the outcome of parsing the
  object's `timestamp` field with `datetime.fromisoformat` (including the
  `Z`/`+`-offset normalisation done by the filter): `some t` for a parsable
  timestamp, `none` when the field is missing, empty, or malformed.
* `malformed excMsg` is a JSON value that is not an object: attribute access
  (`msg.get(...)`) or item access (`msg['timestamp']`) on it raises an
  exception whose rendered message is `excMsg`. -/
inductive Entry where
  | obj (user : String) (ts : Option LTime)
  | malformed (excMsg : String)
deriving DecidableEq, Repr

/-- The parsed time-of-day of an entry's timestamp in seconds since midnight
(`local_time.time()` in the source), when the entry is an object with a
parsable timestamp. -/
def Entry.tsOfDay : Entry → Option Nat
  | .obj _ (some t) => some t.sec
  | .obj _ none => none
  | .malformed _ => none

/-- Membership of a time-of-day (seconds since midnight) in the window with
bounds `s`, `e`: the body of the per-message test in
`_filter_messages_by_time_range`.  The branch condition compares the bound
*strings* (`start_time <= end_time`); the membership tests compare the parsed
`time` values. -/
def selects (s e : HM) (t : Nat) : Bool :=
  if strLe s e then decide (s.toSec ≤ t) && decide (t ≤ e.toSec)
  else decide (t ≥ s.toSec) || decide (t < e.toSec)

/-- `_filter_messages_by_time_range(messages, start_time, end_time)` with the
two bound strings already parsed to `s`, `e` (the source parses them with
`map(int, ...)` and keeps the originals for the branch condition, which
`selects` replays via `strLe`).  A message whose `timestamp` is missing,
empty, or unparsable is skipped by the per-message `try`/`except` (`continue`)
without aborting the remaining messages, as is a non-object entry. -/
def filter_messages_by_time_range (messages : List Entry) (s e : HM) : List Entry :=
  messages.filter fun m =>
    match m.tsOfDay with
    | none => false
    | some t => selects s e t

/-- C1: an event whose timestamp parses is selected iff its time-of-day `t`
satisfies `s ≤ t ≤ e` for a non-wrapping window (`s ≤ e`, both bounds
inclusive) and `t ≥ s ∨ t < e` for a wrapping window (`s > e`); an event
whose timestamp does not parse is selected by no window; and a malformed
entry is dropped without affecting how the remaining events are filtered. -/
theorem filter_selects_iff (s e : HM) (hs : s.valid) (he : e.valid) :
    (∀ (messages : List Entry) (m : Entry),
      m ∈ filter_messages_by_time_range messages s e ↔
        m ∈ messages ∧ ∃ t, m.tsOfDay = some t ∧
          (if s.toSec ≤ e.toSec then s.toSec ≤ t ∧ t ≤ e.toSec
           else t ≥ s.toSec ∨ t < e.toSec)) ∧
    (∀ (xs ys : List Entry) (bad : Entry), bad.tsOfDay = none →
      filter_messages_by_time_range (xs ++ bad :: ys) s e =
        filter_messages_by_time_range xs s e ++ filter_messages_by_time_range ys s e) := by
  have hsel : ∀ t : Nat, selects s e t = true ↔
      (if s.toSec ≤ e.toSec then s.toSec ≤ t ∧ t ≤ e.toSec
       else t ≥ s.toSec ∨ t < e.toSec) := by
    intro t
    unfold selects
    by_cases h : s.toSec ≤ e.toSec
    · rw [if_pos ((strLe_iff s e hs he).mpr h), if_pos h]
      simp
    · rw [if_neg (fun hc => h ((strLe_iff s e hs he).mp hc)), if_neg h]
      simp
  constructor
  · intro messages m
    unfold filter_messages_by_time_range
    rw [List.mem_filter]
    constructor
    · rintro ⟨hm, hsel'⟩
      refine ⟨hm, ?_⟩
      rcases hts : m.tsOfDay with _ | t
      · rw [hts] at hsel'; simp at hsel'
      · rw [hts] at hsel'
        exact ⟨t, rfl, (hsel t).mp hsel'⟩
    · rintro ⟨hm, t, hts, hcond⟩
      exact ⟨hm, by rw [hts]; exact (hsel t).mpr hcond⟩
  · intro xs ys bad hbad
    unfold filter_messages_by_time_range
    rw [List.filter_append, List.filter_cons]
    rw [hbad]
    simp

/-- Witness for C1 at the Morning window `[06:00, 12:00]` and a concrete
message list with one in-window event, one out-of-window event and one
unparsable timestamp. -/
theorem filter_selects_iff_witness :
    HM.valid ⟨6, 0⟩ ∧ HM.valid ⟨12, 0⟩ ∧
    ((Entry.obj "a" (some ⟨0, 7 * 3600⟩)) ∈
        filter_messages_by_time_range
          [Entry.obj "a" (some ⟨0, 7 * 3600⟩), Entry.obj "b" (some ⟨0, 13 * 3600⟩),
           Entry.obj "c" none] ⟨6, 0⟩ ⟨12, 0⟩ ↔
      (Entry.obj "a" (some ⟨0, 7 * 3600⟩)) ∈
          [Entry.obj "a" (some ⟨0, 7 * 3600⟩), Entry.obj "b" (some ⟨0, 13 * 3600⟩),
           Entry.obj "c" none] ∧
        ∃ t, (Entry.obj "a" (some ⟨0, 7 * 3600⟩)).tsOfDay = some t ∧
          (if HM.toSec ⟨6, 0⟩ ≤ HM.toSec ⟨12, 0⟩ then HM.toSec ⟨6, 0⟩ ≤ t ∧ t ≤ HM.toSec ⟨12, 0⟩
           else t ≥ HM.toSec ⟨6, 0⟩ ∨ t < HM.toSec ⟨12, 0⟩)) :=
  ⟨by decide, by decide,
    (filter_selects_iff ⟨6, 0⟩ ⟨12, 0⟩ (by decide) (by decide)).1
      [Entry.obj "a" (some ⟨0, 7 * 3600⟩), Entry.obj "b" (some ⟨0, 13 * 3600⟩),
       Entry.obj "c" none] (Entry.obj "a" (some ⟨0, 7 * 3600⟩))⟩

/-! ## TimePartitionedLog: `MessageStorage` (`src/storage/message_storage.py`) -/

/-- State of the backing day file for one `(chat_id, day)` pair, restricted
to the four shapes that `load_messages`'s read path handles without an
escaping exception (its except clause catches exactly `json.JSONDecodeError`
and `IOError`):

* `absent`: `file_path.exists()` is false;
* `ioError`: opening or reading the file raises `IOError` — caught;
* `badJson`: the file's bytes decode as UTF-8 but the text fails JSON
  parsing (`json.JSONDecodeError`) — caught;
* `ok entries`: the file decodes to a JSON array with the given elements.

This is NOT an exhaustive enumeration of raw file contents: a file whose
bytes are not valid UTF-8 makes the read inside `json.load` raise
`UnicodeDecodeError`, which no except clause catches, and a file holding
valid JSON that is not an array is returned verbatim as a non-list.  Those
two outcomes are modelled by `RawFileState` and `load_messages_raw` below
(`load_messages_raw_restrict` connects the two models); theorems quantified
over `Store` therefore describe stores of handled files only. -/
inductive FileState where
  | absent
  | ioError
  | badJson
  | ok (entries : List Entry)
deriving DecidableEq, Repr

/-- The backing store: the file state for each chat id (Telegram chat ids can
be negative) and calendar day.  Day files are named by the `%Y-%m-%d`
rendering of the date, which is a bijection between dates and file names, so
the day index stands in for the file name. -/
def Store := Int → Nat → FileState

/-- `MessageStorage.load_messages(chat_id, target_date)` on a handled file
(see `FileState`): returns the decoded day file, or an empty list when the
file is absent, unreadable (`IOError`) or fails JSON parsing
(`json.JSONDecodeError`) — those two exception types are caught and logged.
The unrestricted behaviour, including the uncaught-`UnicodeDecodeError` path
and the verbatim non-array return, is `load_messages_raw` below. -/
def load_messages (store : Store) (chat_id : Int) (day : Nat) : List Entry :=
  match store chat_id day with
  | .absent => []
  | .ioError => []
  | .badJson => []
  | .ok entries => entries

/-- The raw state of the backing day file, covering every outcome of
`open(file_path)` followed by `json.load(f)`:

* `absent`: `file_path.exists()` is false;
* `ioError`: opening or reading the file raises `IOError` — caught;
* `badBytes excMsg`: the file's bytes are not valid UTF-8, so the read
  inside `json.load` raises `UnicodeDecodeError` (a `ValueError`, neither a
  `json.JSONDecodeError` nor an `IOError`) with rendered message `excMsg` —
  caught by NO except clause of `load_messages`;
* `badJson`: the bytes decode but the text fails JSON parsing
  (`json.JSONDecodeError`) — caught;
* `nonArray`: the file holds valid JSON that is not an array — `json.load`
  returns it and `load_messages` returns that non-list value verbatim;
* `ok entries`: the file decodes to a JSON array with the given elements. -/
inductive RawFileState where
  | absent
  | ioError
  | badBytes (excMsg : String)
  | badJson
  | nonArray
  | ok (entries : List Entry)
deriving DecidableEq, Repr

/-- A backing store in the raw model. -/
def RawStore := Int → Nat → RawFileState

/-- What a call to `load_messages` does, observed at the call site. -/
inductive LoadOutcome where
  | list (entries : List Entry)
  | nonList
  | raised (excMsg : String)
deriving DecidableEq, Repr

/-- `MessageStorage.load_messages(chat_id, target_date)` in full: an absent
file, an `IOError` and a `json.JSONDecodeError` yield an empty list (the
latter two caught by the except clause); a file of undecodable bytes raises
`UnicodeDecodeError`, which that clause does not catch, so the call
propagates the error; a valid non-array JSON value is returned verbatim. -/
def load_messages_raw (store : RawStore) (chat_id : Int) (day : Nat) : LoadOutcome :=
  match store chat_id day with
  | .absent => .list []
  | .ioError => .list []
  | .badBytes e => .raised e
  | .badJson => .list []
  | .nonArray => .nonList
  | .ok entries => .list entries

/-- The handled raw file shapes, as `FileState`s; `none` for the two
outcomes that escape the except clause's classification. -/
def RawFileState.restrict : RawFileState → Option FileState
  | .absent => some .absent
  | .ioError => some .ioError
  | .badBytes _ => none
  | .badJson => some .badJson
  | .nonArray => none
  | .ok entries => some (.ok entries)

/-- On handled file shapes the full model agrees with the list-valued
restricted model used by the rest of this development. -/
theorem load_messages_raw_restrict (rstore : RawStore) (store : Store)
    (chat_id : Int) (day : Nat)
    (h : (rstore chat_id day).restrict = some (store chat_id day)) :
    load_messages_raw rstore chat_id day = .list (load_messages store chat_id day) := by
  rcases hr : rstore chat_id day with _ | _ | e | _ | _ | es <;>
    rw [hr] at h <;>
    simp only [RawFileState.restrict, Option.some.injEq, reduceCtorEq] at h <;>
    simp [load_messages_raw, load_messages, hr, ← h]

/-- C6 counterexample: a day file whose bytes are not valid UTF-8 — malformed
data — makes `load_messages` propagate `UnicodeDecodeError` rather than
return an empty list; and a file holding valid non-array JSON is returned
verbatim, not as an empty list. -/
theorem load_messages_raises_on_bad_bytes :
    load_messages_raw
      (fun (c : Int) (d : Nat) =>
        if c = 1 ∧ d = 7 then RawFileState.badBytes "invalid start byte"
        else if c = 1 ∧ d = 8 then RawFileState.nonArray
        else RawFileState.absent) 1 7 = .raised "invalid start byte" ∧
    LoadOutcome.raised "invalid start byte" ≠ .list [] ∧
    load_messages_raw
      (fun (c : Int) (d : Nat) =>
        if c = 1 ∧ d = 7 then RawFileState.badBytes "invalid start byte"
        else if c = 1 ∧ d = 8 then RawFileState.nonArray
        else RawFileState.absent) 1 8 = .nonList ∧
    LoadOutcome.nonList ≠ .list [] := by
  refine ⟨rfl, by decide, rfl, by decide⟩

/-- C6 as amended: `load_messages` returns an empty list and raises nothing
for an absent day file, an unreadable one (`IOError`), or one whose decoded
text fails JSON parsing (`json.JSONDecodeError`), and reading twice with no
intervening append reads the same store state and returns identical results;
but a file whose bytes are not valid UTF-8 raises `UnicodeDecodeError`,
which no except clause catches — the call propagates the error — and a file
holding valid JSON that is not an array is returned verbatim rather than as
an empty list. -/
theorem load_messages_tolerance (store : RawStore) (chat_id : Int) (day : Nat) :
    (store chat_id day = .absent → load_messages_raw store chat_id day = .list []) ∧
    (store chat_id day = .ioError → load_messages_raw store chat_id day = .list []) ∧
    (store chat_id day = .badJson → load_messages_raw store chat_id day = .list []) ∧
    (∀ e, store chat_id day = .badBytes e →
      load_messages_raw store chat_id day = .raised e) ∧
    (store chat_id day = .nonArray → load_messages_raw store chat_id day = .nonList) ∧
    load_messages_raw store chat_id day = load_messages_raw store chat_id day := by
  refine ⟨fun h => ?_, fun h => ?_, fun h => ?_, fun e h => ?_, fun h => ?_, rfl⟩ <;>
    simp [load_messages_raw, h]

/-- Witness for C6's amended theorem on a store with one JSON-corrupt day
file (read tolerated as an empty list) and one undecodable-bytes day file
(read propagates the error). -/
theorem load_messages_tolerance_witness :
    ((fun (_ : Int) (d : Nat) =>
        if d = 0 then RawFileState.badJson
        else RawFileState.badBytes "invalid continuation byte") :
      RawStore) 3 0 = .badJson ∧
    load_messages_raw
      (fun (_ : Int) (d : Nat) =>
        if d = 0 then RawFileState.badJson
        else RawFileState.badBytes "invalid continuation byte") 3 0 = .list [] ∧
    ((fun (_ : Int) (d : Nat) =>
        if d = 0 then RawFileState.badJson
        else RawFileState.badBytes "invalid continuation byte") :
      RawStore) 3 1 = .badBytes "invalid continuation byte" ∧
    load_messages_raw
      (fun (_ : Int) (d : Nat) =>
        if d = 0 then RawFileState.badJson
        else RawFileState.badBytes "invalid continuation byte") 3 1 =
      .raised "invalid continuation byte" := by
  refine ⟨by decide, ?_, by decide, ?_⟩
  · exact (load_messages_tolerance
      (fun (_ : Int) (d : Nat) =>
        if d = 0 then RawFileState.badJson
        else RawFileState.badBytes "invalid continuation byte") 3 0).2.2.1 (by decide)
  · exact (load_messages_tolerance
      (fun (_ : Int) (d : Nat) =>
        if d = 0 then RawFileState.badJson
        else RawFileState.badBytes "invalid continuation byte") 3 1).2.2.2.1
      "invalid continuation byte" (by decide)

/-- The ordering test the spec asks of a read result: consecutive entries are
non-decreasing under their stored timestamps.  Stored timestamps are ISO
strings of one common format, which compare lexicographically in the same
order as their instants, modelled by `LTime.abs`; entries without a parsed
timestamp take key `0` (irrelevant for the concrete inputs below). -/
def tsKey (m : Entry) : Nat :=
  match m with
  | .obj _ (some t) => t.abs
  | .obj _ none => 0
  | .malformed _ => 0

/-- Non-decreasing by stored timestamp. -/
def sortedByTimestamp : List Entry → Bool
  | [] => true
  | [_] => true
  | a :: b :: rest => decide (tsKey a ≤ tsKey b) && sortedByTimestamp (b :: rest)

/-- C7 counterexample: a day file stored with its two records out of
timestamp order is returned by `load_messages` in exactly that order —
`load_messages` performs no sort, so the read result is not sorted. -/
theorem load_messages_unsorted :
    load_messages
      (fun (c : Int) (d : Nat) =>
        if c = 1 ∧ d = 10 then
          FileState.ok [Entry.obj "late" (some ⟨10, 900⟩), Entry.obj "early" (some ⟨10, 100⟩)]
        else FileState.absent) 1 10 =
      [Entry.obj "late" (some ⟨10, 900⟩), Entry.obj "early" (some ⟨10, 100⟩)] ∧
    sortedByTimestamp
      (load_messages
        (fun (c : Int) (d : Nat) =>
          if c = 1 ∧ d = 10 then
            FileState.ok [Entry.obj "late" (some ⟨10, 900⟩), Entry.obj "early" (some ⟨10, 100⟩)]
          else FileState.absent) 1 10) = false := by
  constructor <;> rfl

/-- C7 as amended: `load_messages` returns the stored records in exactly
their stored order (it performs no sort), so the read result is sorted by
timestamp precisely when the backing file already is — which the append-only
writer maintains under a monotone clock, but the read itself does not
enforce. -/
theorem load_messages_preserves_order (store : Store) (chat_id : Int) (day : Nat)
    (entries : List Entry) (h : store chat_id day = .ok entries) :
    load_messages store chat_id day = entries ∧
    (sortedByTimestamp entries = true →
      sortedByTimestamp (load_messages store chat_id day) = true) := by
  refine ⟨by simp [load_messages, h], fun hs => ?_⟩
  simpa [load_messages, h] using hs

/-- Witness for C7's amended theorem on a concrete sorted day file. -/
theorem load_messages_preserves_order_witness :
    ((fun (_ : Int) (_ : Nat) =>
        FileState.ok [Entry.obj "a" (some ⟨3, 5⟩), Entry.obj "b" (some ⟨3, 9⟩)]) :
      Store) 2 4 = .ok [Entry.obj "a" (some ⟨3, 5⟩), Entry.obj "b" (some ⟨3, 9⟩)] ∧
    load_messages
      (fun (_ : Int) (_ : Nat) =>
        FileState.ok [Entry.obj "a" (some ⟨3, 5⟩), Entry.obj "b" (some ⟨3, 9⟩)]) 2 4 =
      [Entry.obj "a" (some ⟨3, 5⟩), Entry.obj "b" (some ⟨3, 9⟩)] := by
  refine ⟨by decide, ?_⟩
  exact (load_messages_preserves_order
    (fun (_ : Int) (_ : Nat) =>
      FileState.ok [Entry.obj "a" (some ⟨3, 5⟩), Entry.obj "b" (some ⟨3, 9⟩)]) 2 4
    [Entry.obj "a" (some ⟨3, 5⟩), Entry.obj "b" (some ⟨3, 9⟩)] (by decide)).1

/-! ## RecurringScheduler (`src/scheduler.py`) -/

/-- `DailySummaryScheduler.seconds_until_target_time()` with `datetime.now()`
passed in as `now`, at whole-second granularity.  The source builds
`target_dt = datetime.combine(local_date, self.target_time)`, advances it by
one day when `local_now >= target_dt`, and returns
`int((target_dt - local_now).total_seconds())`. -/
def seconds_until_target_time (now : LTime) (target : HM) : Int :=
  let nowAbs : Int := (now.abs : Nat)
  let targetAbs : Int := (now.day * 86400 + target.toSec : Nat)
  let targetAbs' : Int := if nowAbs ≥ targetAbs then targetAbs + 86400 else targetAbs
  targetAbs' - nowAbs

/-- C8: the scheduler returns the distance to today's target when the target
is still ahead and to tomorrow's target otherwise; in particular it returns
`300` when `now` is exactly 5 minutes before the target, and the result
always lies in `[0, 86400]`. -/
theorem seconds_until_target_time_spec (now : LTime) (target : HM)
    (hn : now.sec < 86400) (ht : target.valid) :
    seconds_until_target_time now target =
      (if now.sec < target.toSec then ((target.toSec : Int) - now.sec)
       else (86400 + (target.toSec : Int) - now.sec)) ∧
    0 ≤ seconds_until_target_time now target ∧
    seconds_until_target_time now target ≤ 86400 ∧
    (now.sec + 300 = target.toSec → seconds_until_target_time now target = 300) := by
  obtain ⟨ht1, ht2⟩ := ht
  have hts : target.toSec ≤ 86340 := by
    unfold HM.toSec; omega
  unfold seconds_until_target_time LTime.abs
  dsimp only
  push_cast
  split_ifs <;>
    exact ⟨by omega, by omega, by omega, fun he => by omega⟩

/-- Witness for C8: five minutes before a 23:30 target the scheduler waits
exactly 300 seconds. -/
theorem seconds_until_target_time_witness :
    (LTime.sec ⟨12, 23 * 3600 + 25 * 60⟩ < 86400) ∧
    HM.valid ⟨23, 30⟩ ∧
    seconds_until_target_time ⟨12, 23 * 3600 + 25 * 60⟩ ⟨23, 30⟩ = 300 :=
  ⟨by decide, by decide,
    (seconds_until_target_time_spec ⟨12, 23 * 3600 + 25 * 60⟩ ⟨23, 30⟩
      (by decide) (by decide)).2.2.2 (by decide)⟩

/-- The outcome of evaluating `time_str.split(':')` followed by
`map(int, ...)` on the configured `daily_summary_time` value:

* `noSplit`: the value has no `.split` attribute (e.g. `None`), so the call
  raises `AttributeError`;
* `fields fs`: splitting produced pieces that all parsed as integers `fs`
  (Python `int` is unbounded, hence `Int`);
* `badInt`: some piece failed to parse (`ValueError` from `int`). -/
inductive TimeInput where
  | noSplit
  | fields (fs : List Int)
  | badInt
deriving DecidableEq, Repr

/-- `datetime.time(hour, minute)`: defined for `0 ≤ hour ≤ 23` and
`0 ≤ minute ≤ 59`, raising `ValueError` (modelled by `none`) otherwise. -/
def timeOf (h m : Int) : Option HM :=
  if 0 ≤ h ∧ h < 24 ∧ 0 ≤ m ∧ m < 60 then some ⟨h.toNat, m.toNat⟩ else none

/-- The fallback `time(23, 59)` returned by `parse_time` on any failure. -/
def fallbackTime : HM := ⟨23, 59⟩

/-- `DailySummaryScheduler.parse_time(time_str)`: unpacks the split/parsed
fields into `hour, minute` (a `ValueError` unless there are exactly two),
builds `time(hour, minute)`, and returns `time(23, 59)` on any
`ValueError` or `AttributeError` along the way. -/
def parse_time : TimeInput → HM
  | .fields [h, m] =>
    match timeOf h m with
    | some t => t
    | none => fallbackTime
  | .fields _ => fallbackTime
  | .noSplit => fallbackTime
  | .badInt => fallbackTime

/-- C10 counterexample: `"25:00"` is of the form `H:M` with integer fields,
yet `parse_time` returns the fallback `23:59`, not `time(25, 0)` — the
out-of-range `time()` construction raises `ValueError`, which the handler
turns into the fallback. -/
theorem parse_time_out_of_range :
    parse_time (.fields [25, 0]) = fallbackTime ∧ fallbackTime ≠ (⟨25, 0⟩ : HM) := by
  constructor <;> decide

/-- C10 as amended: `parse_time` never raises (it is total) and returns
`time(H, M)` exactly for two in-range integer fields `0 ≤ H ≤ 23`,
`0 ≤ M ≤ 59`; every other input — a value without `.split`, a non-integer
field, a field count other than two, or out-of-range fields — yields the
fallback `time(23, 59)`, so a misconfigured `daily_summary_time` silently
schedules the fire at 23:59. -/
theorem parse_time_total_spec :
    (∀ h m : Int, 0 ≤ h → h < 24 → 0 ≤ m → m < 60 →
      parse_time (.fields [h, m]) = ⟨h.toNat, m.toNat⟩) ∧
    (∀ h m : Int, ¬(0 ≤ h ∧ h < 24 ∧ 0 ≤ m ∧ m < 60) →
      parse_time (.fields [h, m]) = fallbackTime) ∧
    (∀ fs : List Int, fs.length ≠ 2 → parse_time (.fields fs) = fallbackTime) ∧
    parse_time .noSplit = fallbackTime ∧
    parse_time .badInt = fallbackTime := by
  refine ⟨fun h m h1 h2 h3 h4 => ?_, fun h m hbad => ?_, fun fs hlen => ?_, rfl, rfl⟩
  · simp [parse_time, timeOf, h1, h2, h3, h4]
  · simp only [parse_time, timeOf, if_neg hbad]
  · match fs, hlen with
    | [], _ => rfl
    | [_], _ => rfl
    | _ :: _ :: _ :: _, _ => rfl
    | [a, b], hlen => exact absurd rfl hlen

/-- Witness for C10's amended theorem: `"7:05"` parses to `time(7, 5)` and
`"25:00"` falls back to `time(23, 59)`. -/
theorem parse_time_total_spec_witness :
    parse_time (.fields [7, 5]) = ⟨(7 : Int).toNat, (5 : Int).toNat⟩ ∧
    parse_time (.fields [25, 0]) = fallbackTime :=
  ⟨parse_time_total_spec.1 7 5 (by decide) (by decide) (by decide) (by decide),
   parse_time_total_spec.2.1 25 0 (by decide)⟩

/-! ## Aggregator: `TelegramBot.send_daily_summary` (`src/bot/telegram_bot.py`)

The sends performed through `safe_send_message` / `safe_send_and_split` are
modelled as a trace of requested texts: by inspection of
`safe_send_message`, every failure path of the underlying transport is caught
and turned into a `None` return, so a send never raises into
`send_daily_summary`.  The summarizer collaborator
(`AISummary.generate_period_summary`) is opaque; its call either returns a
string (Python `None` is modelled as `""`, which takes the same falsy branch)
or raises. -/

/-- Python `str.startswith(prefix)`: a prefix test on the underlying
character sequences.  (The builtin runtime-implemented version does not
reduce inside the kernel, so the model spells out the list form, which has
the same meaning.) -/
def startsWith (s p : String) : Bool := p.data.isPrefixOf s.data

/-- Outcome of one summarizer call. -/
inductive SummRes where
  | ok (s : String)
  | exc (e : String)
deriving DecidableEq, Repr

/-- One entry of the `time_periods` list: a window name and its two bound
times (the source stores the bounds as the strings rendered by
`HM.render`). -/
structure Period where
  name : String
  start : HM
  stop : HM
deriving DecidableEq, Repr

/-- The four canonical windows of `send_daily_summary`, in source order:
Morning `06:00–12:00`, Afternoon `12:00–18:00`, Evening `18:00–23:59`,
LateNight `00:00–06:00`. -/
def timePeriods : List Period :=
  [⟨"早晨", ⟨6, 0⟩, ⟨12, 0⟩⟩, ⟨"下午", ⟨12, 0⟩, ⟨18, 0⟩⟩,
   ⟨"晚上", ⟨18, 0⟩, ⟨23, 59⟩⟩, ⟨"深夜", ⟨0, 0⟩, ⟨6, 0⟩⟩]

/-- The window of `timePeriods` at index `j`. -/
def periodAt (j : Fin 4) : Period :=
  timePeriods.get ⟨j.1, by have := j.2; simp only [timePeriods, List.length]; omega⟩

/-- The result dict of `send_daily_summary`. -/
inductive Status where
  | success
  | partial'
  | failed
  | noMessages
deriving DecidableEq, Repr

/-- The report returned by `send_daily_summary`, plus the model-level trace
`sent` of every text handed to the send helpers during the pass. -/
structure DailyResult where
  status : Status
  totalMessages : Nat
  periodsProcessed : Nat
  errors : List String
  summarySent : Bool
  sent : List String
deriving DecidableEq, Repr

/-- The canned report text sent when the day has no messages. -/
def noMsgText (dateStr : String) : String :=
  "📊 **群组每日总结** (" ++ dateStr ++ ")\n\n📭 今日没有消息记录"

/-- The header text sent before the window loop. -/
def headerText (dateStr : String) : String :=
  "📊 **群组每日总结** (" ++ dateStr ++ ")"

/-- The labelled section text for one window's summary. -/
def periodText (p : Period) (s : String) : String :=
  "**" ++ p.name ++ " (" ++ p.start.render ++ "-" ++ p.stop.render ++ ")**\n" ++ s

/-- Accumulator of the window loop: `periods_processed`,
`total_messages_processed`, the error list (the source keeps
`error_messages` and `result['errors']` in lockstep) and the send trace. -/
structure LoopAcc where
  processed : Nat
  totalProcessed : Nat
  errors : List String
  sent : List String
deriving DecidableEq, Repr

/-- One iteration of the `for i, period in enumerate(time_periods, 1)` loop:
filter the window, call the summarizer on a non-empty window, classify its
return (`错误` prefix → error entry, falsy → empty-result error entry,
`没有消息` prefix → silent skip, otherwise a processed section), and catch a
raised exception as an error entry scoped to the window's name. -/
def processPeriod (summarize : String → List Entry → SummRes) (messages : List Entry)
    (acc : LoopAcc) (p : Period) : LoopAcc :=
  let pm := filter_messages_by_time_range messages p.start p.stop
  if pm.isEmpty then acc
  else
    match summarize p.name pm with
    | .exc e => { acc with errors := acc.errors ++ [p.name ++ "时段处理异常: " ++ e] }
    | .ok s =>
      if s = "" then
        { acc with errors := acc.errors ++ [p.name ++ "时段总结返回空结果"] }
      else if startsWith s "错误" then
        { acc with errors := acc.errors ++ [p.name ++ "时段总结错误: " ++ s] }
      else if startsWith s "没有消息" then acc
      else
        { acc with
            processed := acc.processed + 1,
            totalProcessed := acc.totalProcessed + pm.length,
            sent := acc.sent ++ [periodText p s] }

/-- Increment the count of `u` in the insertion-ordered association list
`acc`, appending a fresh entry when `u` is new — Python dict update order. -/
def bump : List (String × Nat) → String → List (String × Nat)
  | [], u => [(u, 1)]
  | (v, c) :: rest, u =>
    if v = u then (v, c + 1) :: rest else (v, c) :: bump rest u

/-- The `user_stats` loop over all loaded messages: counts per user in
first-seen order.  Hitting a non-object record raises (`.get` on a non-dict),
aborting the loop — the raised message is returned as `.error`, to be caught
by the top-level handler of `send_daily_summary`. -/
def userStats : List Entry → List (String × Nat) → Except String (List (String × Nat))
  | [], acc => .ok acc
  | .obj u _ :: rest, acc => userStats rest (bump acc u)
  | .malformed e :: _, _ => .error e

/-- `sorted(user_stats.items(), key=lambda x: x[1], reverse=True)[:10]`:
stable descending sort by count, top ten. -/
def topUsers (stats : List (String × Nat)) : List (String × Nat) :=
  (stats.mergeSort fun a b => b.2 ≤ a.2).take 10

/-- The numbered ranking lines, `enumerate(top_users, 1)`. -/
def rankLines : Nat → List (String × Nat) → String
  | _, [] => ""
  | i, (u, c) :: rest =>
    toString i ++ ". " ++ u ++ ": " ++ toString c ++ " 条消息\n" ++ rankLines (i + 1) rest

/-- The statistics text assembled after the window loop (before the
empty-day override). -/
def statsText (totalProcessed : Nat) (stats : List (String × Nat))
    (errs : List String) : String :=
  let base := "📝 消息总数: " ++ toString totalProcessed ++ " 条\n" ++
    "👥 活跃用户: " ++ toString stats.length ++ " 人\n\n"
  let base := if (topUsers stats).isEmpty then base
    else base ++ "🏆 **今日活跃用户排行:**\n" ++ rankLines 1 (topUsers stats) ++ "\n"
  if errs.isEmpty then base
  else base ++ "⚠️ **处理过程中遇到的问题:**\n" ++
    String.intercalate "\n" ((errs.take 5).map fun err => "- " ++ err)

/-- The error notification text sent by the top-level exception handler. -/
def errNotifText (e : String) (errors : List String) : String :=
  let base := "\n❌ **每日总结生成失败**\n\n⚠️ 错误: " ++ e ++ "\n"
  if errors.isEmpty then base
  else base ++ "\n📋 详细错误:\n" ++
    String.intercalate "\n" ((errors.take 5).map fun err => "- " ++ err)

/-- The error entry appended by the top-level exception handler. -/
def topErrMsg (e : String) : String := "生成每日总结时发生严重错误: " ++ e

/-- `TelegramBot.send_daily_summary(chat_id)` after the day's messages have
been loaded (`messages`), with the summarizer collaborator `summarize` and
today's `%Y-%m-%d` rendering `dateStr` passed in.

Control flow of the source: initialise the result dict with
`status='failed'`; on an empty day send the canned text and return
`no_messages`; otherwise send the header, run the window loop (each window in
its own `try`), overwrite `total_messages` with the processed count, compute
the user statistics (the only statement outside the per-window `try` scope
that can raise: a non-object record makes `.get` raise), pick the status,
send the statistics text and return.  The top-level `except` appends the
exception to `errors`, sends a failure notification, and returns the result
as mutated so far — since the statistics run before the status assignment,
that result still carries `status='failed'`. -/
def send_daily_summary (dateStr : String) (messages : List Entry)
    (summarize : String → List Entry → SummRes) : DailyResult :=
  if messages.isEmpty then
    { status := .noMessages, totalMessages := 0, periodsProcessed := 0,
      errors := [], summarySent := true, sent := [noMsgText dateStr] }
  else
    let acc := timePeriods.foldl (processPeriod summarize messages)
      ⟨0, 0, [], [headerText dateStr]⟩
    match userStats messages [] with
    | .error e =>
      { status := .failed, totalMessages := acc.totalProcessed,
        periodsProcessed := acc.processed,
        errors := acc.errors ++ [topErrMsg e], summarySent := false,
        sent := acc.sent ++ [errNotifText e (acc.errors ++ [topErrMsg e])] }
    | .ok stats =>
      if acc.totalProcessed > 0 then
        { status := if acc.errors.isEmpty then .success else .partial',
          totalMessages := acc.totalProcessed, periodsProcessed := acc.processed,
          errors := acc.errors, summarySent := true,
          sent := acc.sent ++ [statsText acc.totalProcessed stats acc.errors] }
      else
        { status := .noMessages, totalMessages := acc.totalProcessed,
          periodsProcessed := acc.processed, errors := acc.errors,
          summarySent := true, sent := acc.sent ++ ["📭 今日无有效话题讨论"] }

/-- C4: when `load_messages` returns zero events for the requested day,
`send_daily_summary` returns `status='no_messages'` with the canned
no-events text as its only send — and the result is the same explicit value
for every summarizer `f`, and equal for any two summarizers `f`, `g`: the
summarizer is never invoked on an empty day. -/
theorem send_daily_summary_no_messages (store : Store) (chat_id : Int) (day : Nat)
    (dateStr : String) (f g : String → List Entry → SummRes)
    (h : load_messages store chat_id day = []) :
    send_daily_summary dateStr (load_messages store chat_id day) f =
      { status := .noMessages, totalMessages := 0, periodsProcessed := 0,
        errors := [], summarySent := true, sent := [noMsgText dateStr] } ∧
    send_daily_summary dateStr (load_messages store chat_id day) f =
      send_daily_summary dateStr (load_messages store chat_id day) g := by
  rw [h]
  exact ⟨rfl, rfl⟩

/-- Witness for C4 on a store whose day file is absent, with two summarizers
that disagree everywhere. -/
theorem send_daily_summary_no_messages_witness :
    load_messages (fun (_ : Int) (_ : Nat) => FileState.absent) 5 3 = [] ∧
    send_daily_summary "2024-01-01"
        (load_messages (fun (_ : Int) (_ : Nat) => FileState.absent) 5 3)
        (fun _ _ => .ok "a") =
      { status := .noMessages, totalMessages := 0, periodsProcessed := 0,
        errors := [], summarySent := true, sent := [noMsgText "2024-01-01"] } := by
  refine ⟨rfl, ?_⟩
  exact (send_daily_summary_no_messages (fun (_ : Int) (_ : Nat) => FileState.absent) 5 3
    "2024-01-01" (fun _ _ => .ok "a") (fun _ _ => .ok "b") rfl).1

/-- C5 counterexample: an event at 23:59:30 — a parsable timestamp Python
produces for any message logged in the last minute of the day — is selected
by none of the four canonical windows, so the windows do not cover the full
24h day; moreover the LateNight window `"00:00"–"06:00"` is handled by the
non-wrapping branch (its bound strings satisfy `"00:00" <= "06:00"`), so its
upper end is inclusive, not half-open: 06:00:00 exactly is selected by
LateNight (as well as by Morning). -/
theorem canonical_windows_gap :
    (Entry.obj "u" (some ⟨0, 86370⟩)).tsOfDay = some (23 * 3600 + 59 * 60 + 30) ∧
    (∀ p ∈ timePeriods,
      filter_messages_by_time_range [Entry.obj "u" (some ⟨0, 86370⟩)] p.start p.stop = []) ∧
    selects (periodAt 3).start (periodAt 3).stop (6 * 3600) = true ∧
    selects (periodAt 0).start (periodAt 0).stop (6 * 3600) = true := by
  refine ⟨rfl, ?_, by decide, by decide⟩
  decide

/-- C5 as amended: the canonical windows cover the day only up to 23:59:00 —
every parsed time-of-day `t ≤ 23:59:00` is selected by at least one window,
every `t` in the open last minute `(23:59:00, 24:00:00)` by none; and
LateNight is closed at its upper end, `[00:00, 06:00]`, so 06:00:00 exactly
is selected by both LateNight and Morning. -/
theorem canonical_windows_coverage (t : Nat) (ht : t < 86400) :
    (t ≤ 86340 → ∃ p ∈ timePeriods, selects p.start p.stop t = true) ∧
    (86340 < t → ∀ p ∈ timePeriods, selects p.start p.stop t = false) ∧
    selects (periodAt 3).start (periodAt 3).stop (6 * 3600) = true ∧
    selects (periodAt 0).start (periodAt 0).stop (6 * 3600) = true := by
  refine ⟨fun hle => ?_, fun hgt p hp => ?_, by decide, by decide⟩
  · by_cases h1 : t ≤ 21600
    · refine ⟨⟨"深夜", ⟨0, 0⟩, ⟨6, 0⟩⟩, by simp [timePeriods], ?_⟩
      have hb : strLe ⟨0, 0⟩ ⟨6, 0⟩ = true := by decide
      simp only [selects, hb, if_pos]
      simp only [HM.toSec, Bool.and_eq_true, decide_eq_true_eq]
      omega
    · by_cases h2 : t ≤ 43200
      · refine ⟨⟨"早晨", ⟨6, 0⟩, ⟨12, 0⟩⟩, by simp [timePeriods], ?_⟩
        have hb : strLe ⟨6, 0⟩ ⟨12, 0⟩ = true := by decide
        simp only [selects, hb, if_pos]
        simp only [HM.toSec, Bool.and_eq_true, decide_eq_true_eq]
        omega
      · by_cases h3 : t ≤ 64800
        · refine ⟨⟨"下午", ⟨12, 0⟩, ⟨18, 0⟩⟩, by simp [timePeriods], ?_⟩
          have hb : strLe ⟨12, 0⟩ ⟨18, 0⟩ = true := by decide
          simp only [selects, hb, if_pos]
          simp only [HM.toSec, Bool.and_eq_true, decide_eq_true_eq]
          omega
        · refine ⟨⟨"晚上", ⟨18, 0⟩, ⟨23, 59⟩⟩, by simp [timePeriods], ?_⟩
          have hb : strLe ⟨18, 0⟩ ⟨23, 59⟩ = true := by decide
          simp only [selects, hb, if_pos]
          simp only [HM.toSec, Bool.and_eq_true, decide_eq_true_eq]
          omega
  · simp only [timePeriods, List.mem_cons, List.not_mem_nil, or_false] at hp
    rcases hp with rfl | rfl | rfl | rfl <;>
    · simp only [selects]
      rw [if_pos (by decide)]
      simp only [HM.toSec, Bool.and_eq_true, decide_eq_true_eq]
      simp only [Bool.and_eq_false_iff, decide_eq_false_iff_not]
      omega

/-- Witness for C5's amended theorem at 07:00 (covered by Morning) and at
23:59:30 (covered by no window). -/
theorem canonical_windows_coverage_witness :
    (25200 < 86400 ∧ (∃ p ∈ timePeriods, selects p.start p.stop 25200 = true)) ∧
    (86370 < 86400 ∧ ∀ p ∈ timePeriods, selects p.start p.stop 86370 = false) :=
  ⟨⟨by decide, (canonical_windows_coverage 25200 (by decide)).1 (by decide)⟩,
   ⟨by decide, (canonical_windows_coverage 86370 (by decide)).2.1 (by decide)⟩⟩

/-- Loop step on a non-empty window whose summary is a normal section:
the window is processed. -/
theorem processPeriod_ok (f : String → List Entry → SummRes) (messages : List Entry)
    (acc : LoopAcc) (p : Period) (s : String)
    (hpm : filter_messages_by_time_range messages p.start p.stop ≠ [])
    (hf : f p.name (filter_messages_by_time_range messages p.start p.stop) = .ok s)
    (h1 : s ≠ "") (h2 : startsWith s "错误" = false) (h3 : startsWith s "没有消息" = false) :
    processPeriod f messages acc p =
      { acc with
          processed := acc.processed + 1,
          totalProcessed :=
            acc.totalProcessed + (filter_messages_by_time_range messages p.start p.stop).length,
          sent := acc.sent ++ [periodText p s] } := by
  unfold processPeriod
  rw [if_neg (by simp [hpm]), hf]
  dsimp only
  rw [if_neg h1, if_neg (by simp [h2]), if_neg (by simp [h3])]

/-- Loop step on a non-empty window whose summary carries the `错误` error
marker: an error entry is recorded and nothing else changes. -/
theorem processPeriod_err (f : String → List Entry → SummRes) (messages : List Entry)
    (acc : LoopAcc) (p : Period) (s : String)
    (hpm : filter_messages_by_time_range messages p.start p.stop ≠ [])
    (hf : f p.name (filter_messages_by_time_range messages p.start p.stop) = .ok s)
    (h1 : s ≠ "") (h2 : startsWith s "错误" = true) :
    processPeriod f messages acc p =
      { acc with errors := acc.errors ++ [p.name ++ "时段总结错误: " ++ s] } := by
  unfold processPeriod
  rw [if_neg (by simp [hpm]), hf]
  dsimp only
  rw [if_neg h1, if_pos (by simp [h2])]

/-- Loop step on a non-empty window whose summarizer call raises: the
exception is caught and recorded as an error entry scoped to the window's
name, and the loop continues. -/
theorem processPeriod_exc (f : String → List Entry → SummRes) (messages : List Entry)
    (acc : LoopAcc) (p : Period) (e : String)
    (hpm : filter_messages_by_time_range messages p.start p.stop ≠ [])
    (hf : f p.name (filter_messages_by_time_range messages p.start p.stop) = .exc e) :
    processPeriod f messages acc p =
      { acc with errors := acc.errors ++ [p.name ++ "时段处理异常: " ++ e] } := by
  unfold processPeriod
  rw [if_neg (by simp [hpm]), hf]

/-- C3: `send_daily_summary` always returns a report (the model is a total
function), and an exception raised outside the per-window `try` scope — in
the source the only such raiser is the statistics loop hitting a record
without attribute access — is caught by the top-level handler, appended to
the report's error list, and the returned report has `status='failed'`
(the initial status, still unchanged because the status assignment comes
after the statistics). -/
theorem send_daily_summary_top_level_failed (dateStr : String) (messages : List Entry)
    (f : String → List Entry → SummRes) (e : String)
    (hne : messages ≠ []) (he : userStats messages [] = .error e) :
    (send_daily_summary dateStr messages f).status = .failed ∧
    topErrMsg e ∈ (send_daily_summary dateStr messages f).errors ∧
    (send_daily_summary dateStr messages f).summarySent = false := by
  unfold send_daily_summary
  rw [if_neg (by simp [hne]), he]
  simp

/-- Witness for C3: a day file whose second record is a bare JSON string
makes the statistics loop raise; the pass still returns, with
`status='failed'` and the exception recorded. -/
theorem send_daily_summary_top_level_failed_witness :
    ([Entry.obj "u" (some ⟨0, 100⟩), Entry.malformed "boom"] ≠ ([] : List Entry)) ∧
    (send_daily_summary "2024-01-01"
        [Entry.obj "u" (some ⟨0, 100⟩), Entry.malformed "boom"]
        (fun _ _ => .ok "x")).status = .failed := by
  refine ⟨by decide, ?_⟩
  exact (send_daily_summary_top_level_failed "2024-01-01"
    [Entry.obj "u" (some ⟨0, 100⟩), Entry.malformed "boom"]
    (fun _ _ => .ok "x") "boom" (by decide) rfl).1

/-- C2: on a day with events in all four canonical windows, when the
summarizer yields an error-marker result — or its call raises — for exactly
one window `j` and a normal non-empty summary for the other three, the pass
still processes all windows: the report has `status='partial'`, exactly one
error entry (scoped to window `j`'s name), and `periods_processed = 3`. -/
theorem send_daily_summary_partial (dateStr : String) (messages : List Entry)
    (f : String → List Entry → SummRes) (j : Fin 4) (s : Fin 4 → String)
    (st : List (String × Nat)) (hst : userStats messages [] = .ok st)
    (hne : ∀ i : Fin 4,
      filter_messages_by_time_range messages (periodAt i).start (periodAt i).stop ≠ [])
    (hok : ∀ i : Fin 4, i ≠ j →
      f (periodAt i).name
          (filter_messages_by_time_range messages (periodAt i).start (periodAt i).stop) =
        .ok (s i) ∧
      s i ≠ "" ∧ startsWith (s i) "错误" = false ∧ startsWith (s i) "没有消息" = false)
    (hj : (f (periodAt j).name
            (filter_messages_by_time_range messages (periodAt j).start (periodAt j).stop) =
          .ok (s j) ∧ s j ≠ "" ∧ startsWith (s j) "错误" = true) ∨
        (∃ e, f (periodAt j).name
            (filter_messages_by_time_range messages (periodAt j).start (periodAt j).stop) =
          .exc e)) :
    (send_daily_summary dateStr messages f).status = .partial' ∧
    (send_daily_summary dateStr messages f).errors.length = 1 ∧
    (send_daily_summary dateStr messages f).periodsProcessed = 3 ∧
    ∃ tail, (send_daily_summary dateStr messages f).errors = [(periodAt j).name ++ tail] := by
  have hmne : messages ≠ [] := by
    intro h
    exact hne 0 (by rw [h]; rfl)
  have l0 := List.length_pos.mpr (hne 0)
  have l1 := List.length_pos.mpr (hne 1)
  have l2 := List.length_pos.mpr (hne 2)
  have l3 := List.length_pos.mpr (hne 3)
  have hj4 : ∀ i : Fin 4, i = 0 ∨ i = 1 ∨ i = 2 ∨ i = 3 := by decide
  unfold send_daily_summary
  rw [if_neg (by simp [hmne])]
  dsimp only
  rw [show timePeriods = [periodAt 0, periodAt 1, periodAt 2, periodAt 3] from rfl]
  rcases hj4 j with rfl | rfl | rfl | rfl
  · obtain ⟨hf1, h1a, h1b, h1c⟩ := hok 1 (by decide)
    obtain ⟨hf2, h2a, h2b, h2c⟩ := hok 2 (by decide)
    obtain ⟨hf3, h3a, h3b, h3c⟩ := hok 3 (by decide)
    rcases hj with ⟨hfj, hja, hjb⟩ | ⟨e, hfj⟩ <;>
    · first
      | rw [List.foldl_cons, processPeriod_err f messages _ _ (s 0) (hne 0) hfj hja hjb]
      | rw [List.foldl_cons, processPeriod_exc f messages _ _ _ (hne 0) hfj]
      rw [List.foldl_cons, processPeriod_ok f messages _ _ (s 1) (hne 1) hf1 h1a h1b h1c,
        List.foldl_cons, processPeriod_ok f messages _ _ (s 2) (hne 2) hf2 h2a h2b h2c,
        List.foldl_cons, processPeriod_ok f messages _ _ (s 3) (hne 3) hf3 h3a h3b h3c,
        List.foldl_nil, hst]
      dsimp only
      split_ifs with hpos hemp
      · exact absurd hemp (by simp)
      · exact ⟨rfl, by simp, by simp, _, by rw [List.nil_append, String.append_assoc]⟩
      · exact absurd (by omega) hpos
  · obtain ⟨hf0, h0a, h0b, h0c⟩ := hok 0 (by decide)
    obtain ⟨hf2, h2a, h2b, h2c⟩ := hok 2 (by decide)
    obtain ⟨hf3, h3a, h3b, h3c⟩ := hok 3 (by decide)
    rcases hj with ⟨hfj, hja, hjb⟩ | ⟨e, hfj⟩ <;>
    · rw [List.foldl_cons, processPeriod_ok f messages _ _ (s 0) (hne 0) hf0 h0a h0b h0c]
      first
      | rw [List.foldl_cons, processPeriod_err f messages _ _ (s 1) (hne 1) hfj hja hjb]
      | rw [List.foldl_cons, processPeriod_exc f messages _ _ _ (hne 1) hfj]
      rw [List.foldl_cons, processPeriod_ok f messages _ _ (s 2) (hne 2) hf2 h2a h2b h2c,
        List.foldl_cons, processPeriod_ok f messages _ _ (s 3) (hne 3) hf3 h3a h3b h3c,
        List.foldl_nil, hst]
      dsimp only
      split_ifs with hpos hemp
      · exact absurd hemp (by simp)
      · exact ⟨rfl, by simp, by simp, _, by rw [List.nil_append, String.append_assoc]⟩
      · exact absurd (by omega) hpos
  · obtain ⟨hf0, h0a, h0b, h0c⟩ := hok 0 (by decide)
    obtain ⟨hf1, h1a, h1b, h1c⟩ := hok 1 (by decide)
    obtain ⟨hf3, h3a, h3b, h3c⟩ := hok 3 (by decide)
    rcases hj with ⟨hfj, hja, hjb⟩ | ⟨e, hfj⟩ <;>
    · rw [List.foldl_cons, processPeriod_ok f messages _ _ (s 0) (hne 0) hf0 h0a h0b h0c,
        List.foldl_cons, processPeriod_ok f messages _ _ (s 1) (hne 1) hf1 h1a h1b h1c]
      first
      | rw [List.foldl_cons, processPeriod_err f messages _ _ (s 2) (hne 2) hfj hja hjb]
      | rw [List.foldl_cons, processPeriod_exc f messages _ _ _ (hne 2) hfj]
      rw [List.foldl_cons, processPeriod_ok f messages _ _ (s 3) (hne 3) hf3 h3a h3b h3c,
        List.foldl_nil, hst]
      dsimp only
      split_ifs with hpos hemp
      · exact absurd hemp (by simp)
      · exact ⟨rfl, by simp, by simp, _, by rw [List.nil_append, String.append_assoc]⟩
      · exact absurd (by omega) hpos
  · obtain ⟨hf0, h0a, h0b, h0c⟩ := hok 0 (by decide)
    obtain ⟨hf1, h1a, h1b, h1c⟩ := hok 1 (by decide)
    obtain ⟨hf2, h2a, h2b, h2c⟩ := hok 2 (by decide)
    rcases hj with ⟨hfj, hja, hjb⟩ | ⟨e, hfj⟩ <;>
    · rw [List.foldl_cons, processPeriod_ok f messages _ _ (s 0) (hne 0) hf0 h0a h0b h0c,
        List.foldl_cons, processPeriod_ok f messages _ _ (s 1) (hne 1) hf1 h1a h1b h1c,
        List.foldl_cons, processPeriod_ok f messages _ _ (s 2) (hne 2) hf2 h2a h2b h2c]
      first
      | rw [List.foldl_cons, processPeriod_err f messages _ _ (s 3) (hne 3) hfj hja hjb]
      | rw [List.foldl_cons, processPeriod_exc f messages _ _ _ (hne 3) hfj]
      rw [List.foldl_nil, hst]
      dsimp only
      split_ifs with hpos hemp
      · exact absurd hemp (by simp)
      · exact ⟨rfl, by simp, by simp, _, by rw [List.nil_append, String.append_assoc]⟩
      · exact absurd (by omega) hpos

/-- Witness for C2: one event in each canonical window, a summarizer that
yields the `错误` marker exactly for the Afternoon window and a normal
summary elsewhere. -/
theorem send_daily_summary_partial_witness :
    (send_daily_summary "2024-01-01"
        [Entry.obj "a" (some ⟨0, 25200⟩), Entry.obj "b" (some ⟨0, 46800⟩),
         Entry.obj "c" (some ⟨0, 68400⟩), Entry.obj "d" (some ⟨0, 3600⟩)]
        (fun name _ =>
          if name = "下午" then SummRes.ok "错误: boom" else SummRes.ok "好的总结")).status =
      Status.partial' ∧
    (send_daily_summary "2024-01-01"
        [Entry.obj "a" (some ⟨0, 25200⟩), Entry.obj "b" (some ⟨0, 46800⟩),
         Entry.obj "c" (some ⟨0, 68400⟩), Entry.obj "d" (some ⟨0, 3600⟩)]
        (fun name _ =>
          if name = "下午" then SummRes.ok "错误: boom" else SummRes.ok "好的总结")).errors.length =
      1 ∧
    (send_daily_summary "2024-01-01"
        [Entry.obj "a" (some ⟨0, 25200⟩), Entry.obj "b" (some ⟨0, 46800⟩),
         Entry.obj "c" (some ⟨0, 68400⟩), Entry.obj "d" (some ⟨0, 3600⟩)]
        (fun name _ =>
          if name = "下午" then SummRes.ok "错误: boom" else SummRes.ok "好的总结")).periodsProcessed =
      3 := by
  have h := send_daily_summary_partial "2024-01-01"
    [Entry.obj "a" (some ⟨0, 25200⟩), Entry.obj "b" (some ⟨0, 46800⟩),
     Entry.obj "c" (some ⟨0, 68400⟩), Entry.obj "d" (some ⟨0, 3600⟩)]
    (fun name _ =>
      if name = "下午" then SummRes.ok "错误: boom" else SummRes.ok "好的总结")
    1 (fun i => if i = 1 then "错误: boom" else "好的总结")
    [("a", 1), ("b", 1), ("c", 1), ("d", 1)] rfl (by decide) (by decide)
    (Or.inl ⟨by decide, by decide, by decide⟩)
  exact ⟨h.1, h.2.1, h.2.2.1⟩

/-! ## `load_recent_messages` / `get_message_count`
(`src/storage/message_storage.py`) -/

/-- `datetime.fromisoformat(msg['timestamp'])` as invoked by
`load_recent_messages`: the parsed timestamp of an object entry, `none` when
the call raises (`KeyError`/`ValueError` on a missing or malformed field, or
item access on a non-object entry). -/
def entryTs : Entry → Option LTime
  | .obj _ ts => ts
  | .malformed _ => none

/-- The inner `for msg in day_messages` loop of `load_recent_messages` for
one day file: keeps the messages with
`(now - msg_time).total_seconds() <= hours * 3600` (a signed comparison, so
future-dated messages also pass), in file order.  A message whose timestamp
fails to parse raises out of the loop, modelled by `none` — unlike the window
filter, this loop has no per-message `try`. -/
def filterDay (now : LTime) (hours : Nat) : List Entry → Option (List Entry)
  | [] => some []
  | m :: rest =>
    match entryTs m with
    | none => none
    | some t =>
      match filterDay now hours rest with
      | none => none
      | some l =>
        some (if ((now.abs : Int) - (t.abs : Int)) ≤ ((hours * 3600 : Nat) : Int)
          then m :: l else l)

/-- The outer `for day_offset in range(max(0, hours // 24 + 1))` loop:
loads each trailing day (`now.date() - timedelta(days=day_offset)`) and
accumulates its filtered messages. (`hours` is modelled as a natural number,
for which `max(0, hours // 24 + 1)` is just `hours / 24 + 1`.) -/
def collectDays (store : Store) (chat_id : Int) (now : LTime) (hours : Nat) :
    List Nat → Option (List Entry)
  | [] => some []
  | off :: rest =>
    match filterDay now hours (load_messages store chat_id (now.day - off)) with
    | none => none
    | some l =>
      match collectDays store chat_id now hours rest with
      | none => none
      | some ls => some (l ++ ls)

/-- The `messages.sort(key=lambda x: x['timestamp'])` key: stored ISO
timestamp strings of one common format compare in the same order as their
instants. -/
def tsSortKey (m : Entry) : Nat :=
  match entryTs m with
  | some t => t.abs
  | none => 0

/-- `MessageStorage.load_recent_messages(chat_id, hours)` with the current
local time `now` passed in: scan `hours // 24 + 1` trailing calendar days,
filter each by exact timestamp comparison against the trailing window, and
sort the accumulated result by timestamp.  `none` models the uncaught
exception raised on a record whose timestamp does not parse. -/
def load_recent_messages (store : Store) (chat_id : Int) (now : LTime) (hours : Nat) :
    Option (List Entry) :=
  (collectDays store chat_id now hours (List.range (hours / 24 + 1))).map
    fun ms => ms.mergeSort fun a b => decide (tsSortKey a ≤ tsSortKey b)

/-- `MessageStorage.get_message_count(chat_id, hours)`:
`len(load_recent_messages(...))`. -/
def get_message_count (store : Store) (chat_id : Int) (now : LTime) (hours : Nat) :
    Option Nat :=
  (load_recent_messages store chat_id now hours).map List.length

/-- C9 counterexample: with `hours = 25` and the current time 00:30, a stored
event from 24h45m ago — inside the requested 25-hour window — lies on the
third trailing calendar day, but the scan visits only `25 // 24 + 1 = 2`
days, so the event is not counted: the scanned days do not cover the
window. -/
theorem get_message_count_misses_window_event :
    ((LTime.abs ⟨1000, 1800⟩ : Int) - (LTime.abs ⟨998, 85500⟩ : Int)) ≤ 25 * 3600 ∧
    (fun (c : Int) (d : Nat) =>
        if c = 1 ∧ d = 998 then FileState.ok [Entry.obj "u" (some ⟨998, 85500⟩)]
        else FileState.absent) 1 998 = FileState.ok [Entry.obj "u" (some ⟨998, 85500⟩)] ∧
    get_message_count
      (fun (c : Int) (d : Nat) =>
        if c = 1 ∧ d = 998 then FileState.ok [Entry.obj "u" (some ⟨998, 85500⟩)]
        else FileState.absent) 1 ⟨1000, 1800⟩ 25 = some 0 := by
  refine ⟨by decide, by decide, ?_⟩
  have hrange : List.range (25 / 24 + 1) = [0, 1] := by decide
  have hcd : collectDays
      (fun (c : Int) (d : Nat) =>
        if c = 1 ∧ d = 998 then FileState.ok [Entry.obj "u" (some ⟨998, 85500⟩)]
        else FileState.absent) 1 ⟨1000, 1800⟩ 25 [0, 1] = some [] := rfl
  simp only [get_message_count, load_recent_messages, hrange, hcd, Option.map_some]
  simp [List.mergeSort_nil]

/-- Helper for C9: on a day file whose records all carry parsable timestamps,
the inner loop returns (no exception), and it keeps every record inside the
trailing window. -/
theorem filterDay_some (now : LTime) (hours : Nat) (es : List Entry)
    (h : ∀ m ∈ es, entryTs m ≠ none) :
    ∃ l, filterDay now hours es = some l ∧
      ∀ m ∈ es, ∀ t, entryTs m = some t →
        ((now.abs : Int) - (t.abs : Int)) ≤ ((hours * 3600 : Nat) : Int) → m ∈ l := by
  induction es with
  | nil => exact ⟨[], rfl, by simp⟩
  | cons a as ih =>
    rcases hta : entryTs a with _ | ta
    · exact absurd hta (h a (List.mem_cons_self a as))
    obtain ⟨l, hl, hmem⟩ := ih fun m hm => h m (List.mem_cons_of_mem a hm)
    refine ⟨if ((now.abs : Int) - (ta.abs : Int)) ≤ ((hours * 3600 : Nat) : Int)
        then a :: l else l, ?_, ?_⟩
    · unfold filterDay
      rw [hta, hl]
    · intro m hm t htm hwin
      rcases List.mem_cons.mp hm with rfl | hmas
      · rw [htm] at hta
        injection hta with hta
        rw [if_pos (hta ▸ hwin)]
        exact List.mem_cons_self m l
      · have hml := hmem m hmas t htm hwin
        split_ifs
        · exact List.mem_cons_of_mem a hml
        · exact hml

/-- Helper for C9: when every scanned day's records carry parsable
timestamps, the outer loop returns, and its result contains every in-window
record of every scanned day. -/
theorem collectDays_some (store : Store) (chat_id : Int) (now : LTime) (hours : Nat)
    (offs : List Nat)
    (h : ∀ off ∈ offs, ∀ m ∈ load_messages store chat_id (now.day - off),
      entryTs m ≠ none) :
    ∃ ls, collectDays store chat_id now hours offs = some ls ∧
      ∀ off ∈ offs, ∀ m ∈ load_messages store chat_id (now.day - off),
        ∀ t, entryTs m = some t →
          ((now.abs : Int) - (t.abs : Int)) ≤ ((hours * 3600 : Nat) : Int) → m ∈ ls := by
  induction offs with
  | nil => exact ⟨[], rfl, by simp⟩
  | cons off rest ih =>
    obtain ⟨l, hl, hmeml⟩ := filterDay_some now hours
      (load_messages store chat_id (now.day - off))
      (h off (List.mem_cons_self off rest))
    obtain ⟨ls, hls, hmemls⟩ := ih fun o ho => h o (List.mem_cons_of_mem off ho)
    refine ⟨l ++ ls, ?_, ?_⟩
    · unfold collectDays
      rw [hl, hls]
    · intro o ho m hm t htm hwin
      rcases List.mem_cons.mp ho with rfl | hor
      · exact List.mem_append_left ls (hmeml m hm t htm hwin)
      · exact List.mem_append_right l (hmemls o hor m hm t htm hwin)

/-- C9 as amended: the `hours // 24 + 1` scanned trailing days cover the
requested window exactly when the current time-of-day is at least
`hours mod 24` — in particular always when `hours` is a multiple of 24, such
as the default 24.  Under that condition, with date-consistent storage (each
day file holds records timestamped on that day, as the writer guarantees)
and all timestamps parsable, every stored event within the trailing window
appears in the returned list, by exact timestamp comparison.  (Outside that
condition the window reaches into an unscanned day, and in-window events
there are missed — see the counterexample.) -/
theorem load_recent_messages_covers (store : Store) (chat_id : Int) (now : LTime)
    (hours : Nat) (hnsec : now.sec < 86400)
    (hcov : (hours % 24) * 3600 ≤ now.sec)
    (hcons : ∀ d es, store chat_id d = .ok es →
      ∀ m ∈ es, ∃ u t, m = Entry.obj u (some t) ∧ t.day = d ∧ t.sec < 86400)
    (d : Nat) (es : List Entry) (hes : store chat_id d = .ok es)
    (m : Entry) (hm : m ∈ es) (u : String) (t : LTime) (hmt : m = Entry.obj u (some t))
    (hwin1 : (t.abs : Int) ≤ (now.abs : Int))
    (hwin2 : ((now.abs : Int) - (t.abs : Int)) ≤ ((hours * 3600 : Nat) : Int)) :
    ∃ l, load_recent_messages store chat_id now hours = some l ∧ m ∈ l := by
  obtain ⟨u', t', hmt', htday, htsec⟩ := hcons d es hes m hm
  have ht' : t' = t := by
    rw [hmt] at hmt'
    injection hmt' with _ h
    injection h with h
    exact h.symm
  rw [ht'] at htday htsec
  have habs : t.abs = d * 86400 + t.sec := by rw [LTime.abs, htday]
  have hnabs : now.abs = now.day * 86400 + now.sec := rfl
  have hdle : d ≤ now.day := by
    rw [habs, hnabs] at hwin1
    by_contra hlt
    push_neg at hlt
    omega
  have hoff : now.day - d < hours / 24 + 1 := by
    rw [habs, hnabs] at hwin2
    by_contra hge
    push_neg at hge
    have h24 : hours = 24 * (hours / 24) + hours % 24 := (Nat.div_add_mod hours 24).symm
    omega
  have hwf : ∀ off ∈ List.range (hours / 24 + 1),
      ∀ m' ∈ load_messages store chat_id (now.day - off), entryTs m' ≠ none := by
    intro off _ m' hm'
    rcases hfs : store chat_id (now.day - off) with _ | _ | _ | es'
    · rw [load_messages, hfs] at hm'; cases hm'
    · rw [load_messages, hfs] at hm'; cases hm'
    · rw [load_messages, hfs] at hm'; cases hm'
    · rw [load_messages, hfs] at hm'
      obtain ⟨u'', t'', hmt'', _, _⟩ := hcons _ es' hfs m' hm'
      rw [hmt'']
      simp [entryTs]
  obtain ⟨ls, hls, hmemls⟩ := collectDays_some store chat_id now hours
    (List.range (hours / 24 + 1)) hwf
  refine ⟨ls.mergeSort fun a b => decide (tsSortKey a ≤ tsSortKey b), ?_, ?_⟩
  · rw [load_recent_messages, hls]
    rfl
  · have hday : now.day - (now.day - d) = d := by omega
    have hmls : m ∈ ls := by
      refine hmemls (now.day - d) (List.mem_range.mpr hoff) m ?_ t ?_ hwin2
      · rw [hday, load_messages, hes]
        exact hm
      · rw [hmt]; rfl
    exact ((List.mergeSort_perm ls _).mem_iff).mpr hmls

/-- Witness for C9's amended theorem: with `hours = 24` at 01:00, an event
from yesterday evening (within the last 24 hours) is returned. -/
theorem load_recent_messages_covers_witness :
    ∃ l, load_recent_messages
        (fun (c : Int) (d : Nat) =>
          if c = 1 ∧ d = 999 then FileState.ok [Entry.obj "u" (some ⟨999, 80000⟩)]
          else FileState.absent) 1 ⟨1000, 3600⟩ 24 = some l ∧
      Entry.obj "u" (some ⟨999, 80000⟩) ∈ l := by
  refine load_recent_messages_covers
    (fun (c : Int) (d : Nat) =>
      if c = 1 ∧ d = 999 then FileState.ok [Entry.obj "u" (some ⟨999, 80000⟩)]
      else FileState.absent) 1 ⟨1000, 3600⟩ 24 (by decide) (by decide)
    ?_ 999 [Entry.obj "u" (some ⟨999, 80000⟩)] (by decide)
    (Entry.obj "u" (some ⟨999, 80000⟩)) (by decide) "u" ⟨999, 80000⟩ rfl
    (by decide) (by decide)
  intro d es hes m hm
  dsimp only at hes
  by_cases hd : d = 999
  · subst hd
    rw [if_pos (by exact ⟨rfl, rfl⟩)] at hes
    injection hes with hes
    rw [← hes] at hm
    rcases List.mem_cons.mp hm with rfl | hnil
    · exact ⟨"u", ⟨999, 80000⟩, rfl, rfl, by decide⟩
    · cases hnil
  · rw [if_neg (by simp [hd])] at hes
    cases hes

end TgSummarizer
